import Mathlib

/-!
Verification of the issue-detection and reporting core of the
ductnn/k8s-scanner repository (Go), as a shallow embedding in Lean 4.

Pure Go functions become Lean functions; Go maps become association
lists with deterministic store/lookup (a linearization of the Go map
content: Go map iteration order is arbitrary, the key/value content is
deterministic); int32 fields become Int (only comparisons are performed
on them, no arithmetic that could overflow); the wall clock read in the
workers becomes an explicit timestamp parameter; the Kubernetes client
calls become explicit inputs (a fetch function for events).

The repository contains two generations of the pipeline: the current
one in package pod (pkg/scanner/pod) and a retained legacy one in
package scanner (pkg/scanner).  Both are embedded where the claims
cite both.
-/

/-! ### Go map model: association list with in-place overwrite -/

/-- Lookup in an association list, first binding wins (Go maps have at
most one binding per key; our store keeps that invariant). -/
def lookupA {α : Type} : List (String × α) → String → Option α
  | [], _ => none
  | (k, v) :: rest, key => if k = key then some v else lookupA rest key

/-- Go map assignment: replace the binding in place when the key is
present, append a fresh binding otherwise. -/
def storeA {α : Type} : List (String × α) → String → α → List (String × α)
  | [], key, v => [(key, v)]
  | (k, w) :: rest, key, v =>
      if k = key then (key, v) :: rest else (k, w) :: storeA rest key v

/-! ### Data model (pkg/types/issue.go) -/

/-- types.Issue, field for field. -/
structure Issue where
  kind : String
  ns : String
  name : String
  severity : String
  reason : String
  rootCause : String
  podStatus : String
  timestamp : String
  nodeName : String
  restartCount : Int
  lastEvent : String
deriving DecidableEq, Repr

/-- One container state record: Waiting and Terminated are pointers in
the Go API, each carrying a Reason string when non-nil. -/
structure ContainerState where
  waiting : Option String
  terminated : Option String
deriving DecidableEq, Repr

/-- v1.ContainerStatus restricted to the fields the scanner reads. -/
structure ContainerStatus where
  state : ContainerState
  restartCount : Int
deriving DecidableEq, Repr

/-- v1.Pod restricted to the fields the scanner reads: identity,
status phase, the pod-level status reason, node name and the container
status list. -/
structure Pod where
  ns : String
  name : String
  phase : String
  statusReason : String
  nodeName : String
  containerStatuses : List ContainerStatus
deriving DecidableEq, Repr

/-! ### Event index (pkg/scanner/pod_events.go, EventMap generation) -/

/-- v1.Event restricted to the fields BuildEventMap reads; the
LastTimestamp becomes an integer time value, After becomes strict >. -/
structure ClusterEvent where
  involvedKind : String
  involvedName : String
  message : String
  lastTimestamp : Int
deriving DecidableEq, Repr

/-- EventMap: key namespace/podname to latest event message. -/
def EventMap : Type := List (String × String)

/-- The per-namespace pass of BuildEventMap: fold the fetched events,
keeping per Pod key the message with the greatest timestamp (strictly
later events replace, ties keep the earlier-seen event). -/
def buildNsEventMap (nspace : String) (events : List ClusterEvent) :
    List (String × (String × Int)) :=
  events.foldl
    (fun m ev =>
      if ev.involvedKind = "Pod" then
        let key := nspace ++ "/" ++ ev.involvedName
        match lookupA m key with
        | none => storeA m key (ev.message, ev.lastTimestamp)
        | some e =>
            if ev.lastTimestamp > e.2 then
              storeA m key (ev.message, ev.lastTimestamp)
            else m
      else m)
    []

/-- BuildEventMap: the event fetch per namespace is an explicit input
(none models a failed List call, whose goroutine returns early and
contributes nothing); the concurrent merges are linearized as a fold
in namespace-list order. -/
def BuildEventMap (fetch : String → Option (List ClusterEvent))
    (namespaces : List String) : EventMap :=
  namespaces.foldl
    (fun em nspace =>
      match fetch nspace with
      | none => em
      | some events =>
          (buildNsEventMap nspace events).foldl
            (fun em kv => storeA em kv.1 kv.2.1) em)
    []

/-- GetLatestPodEvent: Go map read, zero value is the empty string. -/
def GetLatestPodEvent (eventMap : EventMap) (nspace podName : String) : String :=
  (lookupA eventMap (nspace ++ "/" ++ podName)).getD ""

/-! ### Package pod (pkg/scanner/pod): the current pipeline -/

namespace pod

/-- pod/status.go: SeverityFromReason. -/
def SeverityFromReason (reason : String) : String :=
  match reason with
  | "ImagePullBackOff" | "ErrImagePull" => "critical"
  | "CrashLoopBackOff" | "Pending" => "high"
  | "Evicted" | "OOMKilled" => "medium"
  | _ => "low"

/-- pod/root_cause.go: DetectPodRootCause. -/
def DetectPodRootCause (reason : String) : String :=
  match reason with
  | "ImagePullBackOff" | "ErrImagePull" =>
      "Không pull được image — có thể sai tag, private registry hoặc thiếu quyền."
  | "CrashLoopBackOff" =>
      "Container start xong rồi crash liên tục — thường do lỗi app hoặc config sai."
  | "Evicted" =>
      "Pod bị evict do node thiếu tài nguyên (disk pressure, memory pressure) — cần kiểm tra node resources."
  | "OOMKilled" =>
      "Container bị kill do thiếu bộ nhớ (Out-of-Memory)."
  | "Pending" =>
      "Không đủ tài nguyên (CPU/RAM) hoặc không match node selector/taints."
  | _ => "Chưa xác định — cần kiểm tra logs container."

/-- pod/restart.go: CheckRestartSeverity. -/
def CheckRestartSeverity (count threshold : Int) : String :=
  if count > threshold then "high" else "low"

/-- First loop of GetPodStatus: first container in waiting state. -/
def firstWaitingReason : List ContainerStatus → Option String
  | [] => none
  | cs :: rest =>
      match cs.state.waiting with
      | some r => some r
      | none => firstWaitingReason rest

/-- Second loop of GetPodStatus: first container in terminated state. -/
def firstTerminatedReason : List ContainerStatus → Option String
  | [] => none
  | cs :: rest =>
      match cs.state.terminated with
      | some r => some r
      | none => firstTerminatedReason rest

/-- pod/status.go: GetPodStatus. -/
def GetPodStatus (p : Pod) : String :=
  if p.phase ≠ "" then p.phase
  else
    match firstWaitingReason p.containerStatuses with
    | some r => r
    | none =>
        match firstTerminatedReason p.containerStatuses with
        | some r => r
        | none => "Unknown"

/-- pod/scanner.go: getMaxRestartCount. -/
def getMaxRestartCount (p : Pod) : Int :=
  p.containerStatuses.foldl
    (fun maxCount cs =>
      if cs.restartCount > maxCount then cs.restartCount else maxCount)
    0

/-- pod/scanner.go: createIssue. -/
def createIssue (p : Pod) (reason podStatus timestamp lastEvent : String)
    (restartCount : Int) : Issue :=
  let severity := SeverityFromReason reason
  let rootCause := DetectPodRootCause reason
  let severity := if reason = "HighRestartCount" then "high" else severity
  let rootCause :=
    if reason = "HighRestartCount" then
      "Container bị restart quá nhiều lần (unstable)."
    else rootCause
  { kind := "Pod"
    ns := p.ns
    name := p.name
    severity := severity
    reason := reason
    rootCause := rootCause
    podStatus := podStatus
    nodeName := p.nodeName
    timestamp := timestamp
    restartCount := restartCount
    lastEvent := lastEvent }

/-- pod/scanner.go: processPod.  The wall-clock timestamp read inside
the Go worker is passed in explicitly. -/
def processPod (p : Pod) (restartThreshold : Int) (eventMap : EventMap)
    (timestamp : String) : List Issue :=
  let podStatus := GetPodStatus p
  let lastEvent := GetLatestPodEvent eventMap p.ns p.name
  let start :=
    if p.phase = "Failed" ∧ p.statusReason = "Evicted" then
      [createIssue p "Evicted" podStatus timestamp lastEvent (getMaxRestartCount p)]
    else []
  p.containerStatuses.foldl
    (fun issues cs =>
      let issues :=
        match cs.state.waiting with
        | some r => issues ++ [createIssue p r podStatus timestamp lastEvent cs.restartCount]
        | none => issues
      let issues :=
        match cs.state.terminated with
        | some r =>
            if r ≠ "" then
              issues ++ [createIssue p r podStatus timestamp lastEvent cs.restartCount]
            else issues
        | none => issues
      if CheckRestartSeverity cs.restartCount restartThreshold = "high" then
        issues ++ [createIssue p "HighRestartCount" podStatus timestamp lastEvent cs.restartCount]
      else issues)
    start

/-- pod/scanner.go: getSeverityPriority. -/
def getSeverityPriority (severity : String) : Nat :=
  match severity with
  | "critical" => 4
  | "high" => 3
  | "medium" => 2
  | "low" => 1
  | _ => 0

/-- pod/scanner.go: getReasonPriority (the specificReasons map literal,
the HighRestartCount special case, default 5). -/
def getReasonPriority (reason : String) : Nat :=
  match reason with
  | "ImagePullBackOff" => 10
  | "ErrImagePull" => 10
  | "CrashLoopBackOff" => 9
  | "OOMKilled" => 8
  | "Evicted" => 7
  | "Pending" => 6
  | "HighRestartCount" => 1
  | _ => 5

/-- The key deduplicateIssues computes: issue.Namespace + slash + issue.Name. -/
def dedupKey (issue : Issue) : String :=
  issue.ns ++ "/" ++ issue.name

/-- One iteration of the loop body of deduplicateIssues (the key the
loop computes is dedupKey issue). -/
def dedupStep (podIssues : List (String × Issue)) (issue : Issue) :
    List (String × Issue) :=
  match lookupA podIssues (dedupKey issue) with
  | none => storeA podIssues (dedupKey issue) issue
  | some existing =>
      if getSeverityPriority issue.severity > getSeverityPriority existing.severity then
        storeA podIssues (dedupKey issue) issue
      else
        if getSeverityPriority issue.severity = getSeverityPriority existing.severity
            ∧ getReasonPriority issue.reason > getReasonPriority existing.reason then
          storeA podIssues (dedupKey issue) issue
        else podIssues

/-- pod/scanner.go: deduplicateIssues.  The final map-to-slice pass is
linearized in key-insertion order. -/
def deduplicateIssues (issues : List Issue) : List Issue :=
  if issues.isEmpty then issues
  else (issues.foldl dedupStep []).map Prod.snd

end pod

/-! ### Package scanner (pkg/scanner): the retained legacy pipeline -/

namespace scanner

/-- pkg/scanner/severity.go: the legacy SeverityFromReason. -/
def SeverityFromReason (reason : String) : String :=
  match reason with
  | "ImagePullBackOff" | "ErrImagePull" | "CrashLoopBackOff" => "critical"
  | "Evicted" | "OOMKilled" => "high"
  | "Pending" => "medium"
  | _ => "low"

/-- pkg/scanner/pod_restart.go: CheckRestartSeverity (same body as the
pod package version). -/
def CheckRestartSeverity (count threshold : Int) : String :=
  if count > threshold then "high" else "low"

/-- pkg/scanner GetPodStatus: identical body to pod/status.go, so it
is expressed through the same loop helpers. -/
def GetPodStatus (p : Pod) : String :=
  if p.phase ≠ "" then p.phase
  else
    match pod.firstWaitingReason p.containerStatuses with
    | some r => r
    | none =>
        match pod.firstTerminatedReason p.containerStatuses with
        | some r => r
        | none => "Unknown"

/-- pkg/scanner/pod_scanner.go: the legacy processPod.  It emits an
issue per waiting container and per high restart count only: no
pod-level Evicted check and no terminated-state check.  The legacy
DetectPodRootCause of package scanner is not among the packed sources;
the pod package table is used in its place (the theorems below never
depend on a root-cause string of this function). -/
def processPod (p : Pod) (restartThreshold : Int) (eventMap : EventMap)
    (timestamp : String) : List Issue :=
  let podStatus := GetPodStatus p
  let lastEvent := GetLatestPodEvent eventMap p.ns p.name
  p.containerStatuses.foldl
    (fun issues cs =>
      let issues :=
        match cs.state.waiting with
        | some reason =>
            issues ++
              [{ kind := "Pod"
                 ns := p.ns
                 name := p.name
                 severity := SeverityFromReason reason
                 reason := reason
                 rootCause := pod.DetectPodRootCause reason
                 podStatus := podStatus
                 nodeName := p.nodeName
                 timestamp := timestamp
                 restartCount := cs.restartCount
                 lastEvent := lastEvent }]
        | none => issues
      if CheckRestartSeverity cs.restartCount restartThreshold = "high" then
        issues ++
          [{ kind := "Pod"
             ns := p.ns
             name := p.name
             severity := "high"
             reason := "HighRestartCount"
             rootCause := "Container bị restart quá nhiều lần (unstable)."
             podStatus := podStatus
             nodeName := p.nodeName
             timestamp := timestamp
             restartCount := cs.restartCount
             lastEvent := lastEvent }]
      else issues)
    []

end scanner

/-! ### Package report (pkg/report): the diff engine -/

namespace report

/-- issueKey: namespace/kind/name, as the Sprintf in the source. -/
def issueKey (issue : Issue) : String :=
  issue.ns ++ "/" ++ issue.kind ++ "/" ++ issue.name

/-- A saved report, restricted to the fields DiffReports reads. -/
structure ReportData where
  generatedAt : String
  issues : List Issue
deriving DecidableEq, Repr

/-- IssueChange. -/
structure IssueChange where
  oldIssue : Issue
  newIssue : Issue
  changes : List String
deriving DecidableEq, Repr

/-- DiffResult. -/
structure DiffResult where
  newIssues : List Issue
  resolvedIssues : List Issue
  changedIssues : List IssueChange
deriving DecidableEq, Repr

/-- The key-to-issue map built at the top of DiffReports (Go map
assignment in list order: a later issue with the same key overwrites). -/
def buildIssueMap (issues : List Issue) : List (String × Issue) :=
  issues.foldl (fun m issue => storeA m (issueKey issue) issue) []

/-- compareIssues: the six field comparisons, in source order. -/
def compareIssues (old new : Issue) : List String :=
  (if old.severity ≠ new.severity then
    ["Severity: " ++ old.severity ++ " → " ++ new.severity] else [])
  ++ (if old.reason ≠ new.reason then
    ["Reason: " ++ old.reason ++ " → " ++ new.reason] else [])
  ++ (if old.podStatus ≠ new.podStatus then
    ["Status: " ++ old.podStatus ++ " → " ++ new.podStatus] else [])
  ++ (if old.restartCount ≠ new.restartCount then
    ["RestartCount: " ++ toString old.restartCount ++ " → " ++ toString new.restartCount] else [])
  ++ (if old.rootCause ≠ new.rootCause then
    ["RootCause: " ++ old.rootCause ++ " → " ++ new.rootCause] else [])
  ++ (if old.nodeName ≠ new.nodeName then
    ["NodeName: " ++ old.nodeName ++ " → " ++ new.nodeName] else [])

/-- The body of the changed-issues loop of DiffReports for one entry
of the new map: compare with the old issue under the same key when
there is one, and emit a change record when the change list is
non-empty. -/
def changedEntry (oldIssuesMap : List (String × Issue)) (kv : String × Issue) :
    Option IssueChange :=
  match lookupA oldIssuesMap kv.1 with
  | some oldIssue =>
      if (compareIssues oldIssue kv.2).isEmpty then none
      else some { oldIssue := oldIssue, newIssue := kv.2,
                  changes := compareIssues oldIssue kv.2 }
  | none => none

/-- DiffReports.  The three Go map-range loops with appends are
linearized as filter / filterMap over the maps in insertion order. -/
def DiffReports (oldReport newReport : ReportData) : DiffResult :=
  let oldIssuesMap := buildIssueMap oldReport.issues
  let newIssuesMap := buildIssueMap newReport.issues
  { newIssues :=
      (newIssuesMap.filter (fun kv => (lookupA oldIssuesMap kv.1).isNone)).map Prod.snd
    resolvedIssues :=
      (oldIssuesMap.filter (fun kv => (lookupA newIssuesMap kv.1).isNone)).map Prod.snd
    changedIssues :=
      newIssuesMap.filterMap (changedEntry oldIssuesMap) }

end report

/-! ### Spec-side definitions (worded from the specification and claims,
for refinement comparison with the code-side definitions above) -/

/-- The severity table as the spec states it: ImagePullBackOff and
ErrImagePull are critical, CrashLoopBackOff and Pending are high,
Evicted and OOMKilled are medium, anything else is low. -/
def specSeverityFromReason (reason : String) : String :=
  match reason with
  | "ImagePullBackOff" | "ErrImagePull" => "critical"
  | "CrashLoopBackOff" | "Pending" => "high"
  | "Evicted" | "OOMKilled" => "medium"
  | _ => "low"

/-- The status rule as the spec states it: a non-empty phase verbatim,
else the reason of the first waiting container, else the reason of the
first terminated container, else the literal Unknown. -/
def specPodStatus (p : Pod) : String :=
  if p.phase ≠ "" then p.phase
  else
    match p.containerStatuses.find? (fun cs => cs.state.waiting.isSome) with
    | some cs => cs.state.waiting.getD ""
    | none =>
        match p.containerStatuses.find? (fun cs => cs.state.terminated.isSome) with
        | some cs => cs.state.terminated.getD ""
        | none => "Unknown"

/-- The per-workload issue list prescribed by the spec steps: one
Evicted issue with the maximum restart count when the pod-level phase
is Failed with reason Evicted, then per container a waiting issue, a
terminated issue when the terminated reason is non-empty, and a
HighRestartCount issue when the restart count exceeds the threshold. -/
def specWorkerIssues (p : Pod) (threshold : Int) (eventMap : EventMap)
    (timestamp : String) : List Issue :=
  let podStatus := pod.GetPodStatus p
  let lastEvent := GetLatestPodEvent eventMap p.ns p.name
  (if p.phase = "Failed" ∧ p.statusReason = "Evicted" then
    [pod.createIssue p "Evicted" podStatus timestamp lastEvent (pod.getMaxRestartCount p)]
  else [])
  ++ (p.containerStatuses.map (fun cs =>
        (match cs.state.waiting with
         | some r => [pod.createIssue p r podStatus timestamp lastEvent cs.restartCount]
         | none => [])
        ++ (match cs.state.terminated with
            | some r =>
                if r ≠ "" then
                  [pod.createIssue p r podStatus timestamp lastEvent cs.restartCount]
                else []
            | none => [])
        ++ (if cs.restartCount > threshold then
              [pod.createIssue p "HighRestartCount" podStatus timestamp lastEvent cs.restartCount]
            else []))).flatten

/-- Severity tiers ranked as the claim states: critical 4, high 3,
medium 2, low 1, any other severity string 0. -/
def specSeverityRank (severity : String) : Nat :=
  match severity with
  | "critical" => 4
  | "high" => 3
  | "medium" => 2
  | "low" => 1
  | _ => 0

/-- Reason specificity ranked as the claim states: ImagePullBackOff
and ErrImagePull 10, CrashLoopBackOff 9, OOMKilled 8, Evicted 7,
Pending 6, any other reason 5, HighRestartCount 1. -/
def specReasonRank (reason : String) : Nat :=
  match reason with
  | "ImagePullBackOff" => 10
  | "ErrImagePull" => 10
  | "CrashLoopBackOff" => 9
  | "OOMKilled" => 8
  | "Evicted" => 7
  | "Pending" => 6
  | "HighRestartCount" => 1
  | _ => 5

/-- The resolution rule of the claim: a candidate replaces the running
best on strictly higher severity rank, or on equal severity rank and
strictly higher reason rank; otherwise the earlier best stays. -/
def betterIssue (best candidate : Issue) : Issue :=
  if specSeverityRank candidate.severity > specSeverityRank best.severity then candidate
  else
    if specSeverityRank candidate.severity = specSeverityRank best.severity
        ∧ specReasonRank candidate.reason > specReasonRank best.reason then candidate
    else best

/-- One diff line as the claim formats it, emitted only when the field
differs. -/
def specFieldLine (field oldVal newVal : String) (differs : Prop)
    [Decidable differs] : List String :=
  if differs then [field ++ ": " ++ oldVal ++ " → " ++ newVal] else []

/-- The change list prescribed by the claim: exactly the six fields
severity, reason, status, restart count, root cause, node name, one
formatted line per differing field. -/
def specFieldChanges (o n : Issue) : List String :=
  specFieldLine "Severity" o.severity n.severity (o.severity ≠ n.severity)
  ++ specFieldLine "Reason" o.reason n.reason (o.reason ≠ n.reason)
  ++ specFieldLine "Status" o.podStatus n.podStatus (o.podStatus ≠ n.podStatus)
  ++ specFieldLine "RestartCount" (toString o.restartCount) (toString n.restartCount)
      (o.restartCount ≠ n.restartCount)
  ++ specFieldLine "RootCause" o.rootCause n.rootCause (o.rootCause ≠ n.rootCause)
  ++ specFieldLine "NodeName" o.nodeName n.nodeName (o.nodeName ≠ n.nodeName)

/-- Agreement on the six fields the diff claim designates as the
observable ones. -/
def sameSixFields (a b : Issue) : Prop :=
  a.severity = b.severity ∧ a.reason = b.reason ∧ a.podStatus = b.podStatus
  ∧ a.restartCount = b.restartCount ∧ a.rootCause = b.rootCause
  ∧ a.nodeName = b.nodeName

/-! ### Helper lemmas on the status loops and the worker fold -/

theorem firstWaitingReason_eq_find (l : List ContainerStatus) :
    pod.firstWaitingReason l =
      (l.find? (fun cs => cs.state.waiting.isSome)).map (fun cs => cs.state.waiting.getD "") := by
  induction l with
  | nil => rfl
  | cons cs rest ih =>
      cases h : cs.state.waiting <;>
        simp [pod.firstWaitingReason, List.find?_cons, h, ih]

theorem firstTerminatedReason_eq_find (l : List ContainerStatus) :
    pod.firstTerminatedReason l =
      (l.find? (fun cs => cs.state.terminated.isSome)).map (fun cs => cs.state.terminated.getD "") := by
  induction l with
  | nil => rfl
  | cons cs rest ih =>
      cases h : cs.state.terminated <;>
        simp [pod.firstTerminatedReason, List.find?_cons, h, ih]

theorem foldl_append_form {α β : Type} (g : β → List α) (l : List β) (init : List α) :
    l.foldl (fun acc x => acc ++ g x) init = init ++ (l.map g).flatten := by
  induction l generalizing init with
  | nil => simp
  | cons x rest ih => simp [ih, List.append_assoc]

/-- Claim C7: for every workload instance, GetPodStatus returns the
non-empty phase verbatim, else the waiting reason of the first waiting
container, else the terminated reason of the first terminated
container, else the literal Unknown; it is a pure function of the pod,
and the identical legacy copy in package scanner agrees with it. -/
theorem GetPodStatus_spec_rule :
    (∀ p : Pod, pod.GetPodStatus p = specPodStatus p)
    ∧ (∀ p : Pod, scanner.GetPodStatus p = pod.GetPodStatus p) := by
  constructor
  · intro p
    unfold pod.GetPodStatus specPodStatus
    rw [firstWaitingReason_eq_find, firstTerminatedReason_eq_find]
    cases l1 : p.containerStatuses.find? (fun cs => cs.state.waiting.isSome) <;>
      cases l2 : p.containerStatuses.find? (fun cs => cs.state.terminated.isSome) <;>
      simp
  · intro p
    rfl

/-- Claim C8: an issue created for the synthetic reason
HighRestartCount carries severity high and the fixed unstable-restarts
root-cause message, overriding the table lookups, which for that reason
would give severity low and the unknown-cause fallback text. -/
theorem createIssue_highRestartCount_override :
    (∀ (p : Pod) (podStatus timestamp lastEvent : String) (restartCount : Int),
        (pod.createIssue p "HighRestartCount" podStatus timestamp lastEvent restartCount).severity
            = "high"
        ∧ (pod.createIssue p "HighRestartCount" podStatus timestamp lastEvent restartCount).rootCause
            = "Container bị restart quá nhiều lần (unstable).")
    ∧ pod.SeverityFromReason "HighRestartCount" = "low"
    ∧ pod.DetectPodRootCause "HighRestartCount"
        = "Chưa xác định — cần kiểm tra logs container." :=
  ⟨fun _ _ _ _ _ => ⟨rfl, rfl⟩, rfl, rfl⟩

/-- Claim C3 (amended): the SeverityFromReason of the pod package used
by the scan pipeline realizes exactly the spec table, including the
three quoted instances. -/
theorem pod_severity_table_spec :
    (∀ reason : String, pod.SeverityFromReason reason = specSeverityFromReason reason)
    ∧ pod.SeverityFromReason "ImagePullBackOff" = "critical"
    ∧ pod.SeverityFromReason "Evicted" = "medium"
    ∧ pod.SeverityFromReason "totally-unknown" = "low" :=
  ⟨fun _ => rfl, rfl, rfl, rfl⟩

/-- Claim C3 counterexample: the legacy SeverityFromReason of package
scanner, also quoted by the claim, contradicts the table at Evicted
(high, not medium) and at CrashLoopBackOff (critical, not high). -/
theorem legacy_severity_table_cex :
    scanner.SeverityFromReason "Evicted" = "high"
    ∧ ¬ scanner.SeverityFromReason "Evicted" = "medium"
    ∧ scanner.SeverityFromReason "CrashLoopBackOff" = "critical"
    ∧ ¬ scanner.SeverityFromReason "CrashLoopBackOff" = "high" := by
  refine ⟨rfl, ?_, rfl, ?_⟩ <;> decide

/-- Claim C4 (amended): the pod-package worker processPod emits exactly
the issue list prescribed by the spec steps: the pod-level Evicted
issue with the maximum container restart count, then per container the
waiting-reason issue, the non-empty terminated-reason issue, and the
HighRestartCount issue exactly when the restart count exceeds the
caller-supplied threshold; nothing else. -/
theorem processPod_spec_steps (p : Pod) (threshold : Int) (eventMap : EventMap)
    (timestamp : String) :
    pod.processPod p threshold eventMap timestamp
      = specWorkerIssues p threshold eventMap timestamp := by
  unfold pod.processPod specWorkerIssues
  rw [List.foldl_ext _ (fun issues cs =>
        issues ++
          ((match cs.state.waiting with
            | some r => [pod.createIssue p r (pod.GetPodStatus p) timestamp
                (GetLatestPodEvent eventMap p.ns p.name) cs.restartCount]
            | none => [])
          ++ (match cs.state.terminated with
              | some r =>
                  if r ≠ "" then
                    [pod.createIssue p r (pod.GetPodStatus p) timestamp
                      (GetLatestPodEvent eventMap p.ns p.name) cs.restartCount]
                  else []
              | none => [])
          ++ (if cs.restartCount > threshold then
                [pod.createIssue p "HighRestartCount" (pod.GetPodStatus p) timestamp
                  (GetLatestPodEvent eventMap p.ns p.name) cs.restartCount]
              else [])))]
  · rw [foldl_append_form]
  · intro issues cs _
    cases hw : cs.state.waiting <;> cases ht : cs.state.terminated <;>
      by_cases hr : cs.restartCount > threshold <;>
      simp [pod.CheckRestartSeverity, hr, List.append_assoc] <;>
      split <;> simp [List.append_assoc]

/-- The concrete workload of the C4 counterexample: one container in
terminated state with the non-empty reason OOMKilled, no waiting
state, restart count below the threshold. -/
def cexTerminatedPod : Pod :=
  { ns := "default"
    name := "job-1"
    phase := ""
    statusReason := ""
    nodeName := "node-a"
    containerStatuses :=
      [{ state := { waiting := none, terminated := some "OOMKilled" }
         restartCount := 0 }] }

/-- Claim C4 counterexample: on a pod whose only container is
terminated with reason OOMKilled, the spec steps prescribe exactly one
issue with reason OOMKilled, but the legacy processPod of package
scanner, also quoted by the claim, emits no issue at all (it checks
neither the pod-level Evicted state nor terminated containers). -/
theorem legacy_processPod_cex :
    scanner.processPod cexTerminatedPod 5 [] "t0" = []
    ∧ (specWorkerIssues cexTerminatedPod 5 [] "t0").map Issue.reason = ["OOMKilled"]
    ∧ (pod.processPod cexTerminatedPod 5 [] "t0").map Issue.reason = ["OOMKilled"] := by
  refine ⟨rfl, ?_, ?_⟩ <;> decide

/-- Claim C9: event-index lookup is total — the indexed message when
the key is present, the empty string when absent — and a namespace
whose event fetch fails contributes no entries and does not abort the
build: the index over a namespace list containing the failing
namespace equals the index over the same list with it removed. -/
theorem eventIndex_total_and_failure_absorbed :
    (∀ (eventMap : EventMap) (nspace podName msg : String),
        (lookupA eventMap (nspace ++ "/" ++ podName) = some msg →
            GetLatestPodEvent eventMap nspace podName = msg)
        ∧ (lookupA eventMap (nspace ++ "/" ++ podName) = none →
            GetLatestPodEvent eventMap nspace podName = ""))
    ∧ (∀ (fetch : String → Option (List ClusterEvent))
          (before after : List String) (nspace : String),
        fetch nspace = none →
          BuildEventMap fetch (before ++ nspace :: after)
            = BuildEventMap fetch (before ++ after)) := by
  constructor
  · intro eventMap nspace podName msg
    constructor
    · intro h
      simp [GetLatestPodEvent, h]
    · intro h
      simp [GetLatestPodEvent, h]
  · intro fetch before after nspace h
    simp only [BuildEventMap, List.foldl_append, List.foldl_cons, h]

/-- A concrete event fetch for the C9 witness: the namespace bad
fails, the namespace good yields one Pod event. -/
def cexFetch : String → Option (List ClusterEvent) :=
  fun nspace =>
    if nspace = "bad" then none
    else some [{ involvedKind := "Pod", involvedName := "p1",
                 message := "Pulling image", lastTimestamp := 3 }]

theorem eventIndex_total_and_failure_absorbed_witness :
    GetLatestPodEvent [("a/p1", "m1")] "a" "p1" = "m1"
    ∧ GetLatestPodEvent [("a/p1", "m1")] "a" "p2" = ""
    ∧ BuildEventMap cexFetch ["good", "bad"] = BuildEventMap cexFetch ["good"] :=
  ⟨(eventIndex_total_and_failure_absorbed.1 [("a/p1", "m1")] "a" "p1" "m1").1 (by decide),
   (eventIndex_total_and_failure_absorbed.1 [("a/p1", "m1")] "a" "p2" "").2 (by decide),
   eventIndex_total_and_failure_absorbed.2 cexFetch ["good"] [] "bad" rfl⟩

/-- Claim C10: the diff field comparison depends only on the six
designated fields — two runs on issue pairs agreeing on those six
fields return the same change list, whatever the timestamps and last
events are — and a pair agreeing on all six fields yields the empty
change list, so a re-scan changing only detection timestamp or the
correlated event message never produces a changed issue. -/
theorem compareIssues_six_fields_only :
    (∀ o1 n1 o2 n2 : Issue, sameSixFields o1 o2 → sameSixFields n1 n2 →
        report.compareIssues o1 n1 = report.compareIssues o2 n2)
    ∧ (∀ o n : Issue, sameSixFields o n → report.compareIssues o n = []) := by
  constructor
  · rintro o1 n1 o2 n2 ⟨h1, h2, h3, h4, h5, h6⟩ ⟨g1, g2, g3, g4, g5, g6⟩
    simp only [report.compareIssues, h1, h2, h3, h4, h5, h6, g1, g2, g3, g4, g5, g6]
  · rintro o n ⟨h1, h2, h3, h4, h5, h6⟩
    simp [report.compareIssues, h1, h2, h3, h4, h5, h6]

/-- A concrete issue for the C10 witness. -/
def cexIssueA : Issue :=
  { kind := "Pod", ns := "a", name := "x", severity := "high"
    reason := "CrashLoopBackOff", rootCause := "rc", podStatus := "Running"
    timestamp := "t1", nodeName := "n1", restartCount := 3, lastEvent := "e1" }

/-- The same observable issue re-detected later: only the detection
timestamp and the correlated event message differ. -/
def cexIssueB : Issue :=
  { cexIssueA with timestamp := "t2", lastEvent := "e2" }

theorem compareIssues_six_fields_only_witness :
    report.compareIssues cexIssueA cexIssueA = report.compareIssues cexIssueB cexIssueB
    ∧ report.compareIssues cexIssueA cexIssueB = [] :=
  ⟨compareIssues_six_fields_only.1 cexIssueA cexIssueA cexIssueB cexIssueB
      ⟨rfl, rfl, rfl, rfl, rfl, rfl⟩ ⟨rfl, rfl, rfl, rfl, rfl, rfl⟩,
   compareIssues_six_fields_only.2 cexIssueA cexIssueB ⟨rfl, rfl, rfl, rfl, rfl, rfl⟩⟩

/-! ### Association-list lemmas for the Go map model -/

theorem lookupA_eq_none_iff {α : Type} (m : List (String × α)) (k : String) :
    lookupA m k = none ↔ k ∉ m.map Prod.fst := by
  induction m with
  | nil => simp [lookupA]
  | cons kv rest ih =>
      obtain ⟨a, v⟩ := kv
      by_cases h : a = k
      · simp [lookupA, h]
      · simp [lookupA, h, ih]
        tauto

theorem lookupA_storeA_self {α : Type} (m : List (String × α)) (k : String) (v : α) :
    lookupA (storeA m k v) k = some v := by
  induction m with
  | nil => simp [storeA, lookupA]
  | cons kv rest ih =>
      obtain ⟨a, w⟩ := kv
      by_cases h : a = k <;> simp [storeA, lookupA, h, ih]

theorem lookupA_storeA_ne {α : Type} (m : List (String × α)) {k key : String} (v : α)
    (h : k ≠ key) : lookupA (storeA m k v) key = lookupA m key := by
  induction m with
  | nil => simp [storeA, lookupA, h]
  | cons kv rest ih =>
      obtain ⟨a, w⟩ := kv
      by_cases ha : a = k
      · subst ha
        simp [storeA, lookupA, h]
      · simp [storeA, lookupA, ha, ih]

theorem storeA_eq_append {α : Type} {m : List (String × α)} {k : String} (v : α)
    (h : lookupA m k = none) : storeA m k v = m ++ [(k, v)] := by
  induction m with
  | nil => rfl
  | cons kv rest ih =>
      obtain ⟨a, w⟩ := kv
      by_cases ha : a = k
      · simp [lookupA, ha] at h
      · simp [lookupA, ha] at h
        simp [storeA, ha, ih h]

theorem storeA_keys_of_some {α : Type} {m : List (String × α)} {k : String} {e : α}
    (h : lookupA m k = some e) (v : α) :
    (storeA m k v).map Prod.fst = m.map Prod.fst := by
  induction m with
  | nil => simp [lookupA] at h
  | cons kv rest ih =>
      obtain ⟨a, w⟩ := kv
      by_cases ha : a = k
      · simp [storeA, ha]
      · simp [lookupA, ha] at h
        simp [storeA, ha, ih h]

theorem mem_storeA {α : Type} {m : List (String × α)} {k : String} {v : α}
    {x : String × α} (h : x ∈ storeA m k v) : x ∈ m ∨ x = (k, v) := by
  induction m with
  | nil =>
      simp [storeA] at h
      simp [h]
  | cons kv rest ih =>
      obtain ⟨a, w⟩ := kv
      by_cases ha : a = k
      · simp [storeA, ha] at h
        rcases h with h | h
        · right; simp [h]
        · left; simp [h]
      · simp [storeA, ha] at h
        rcases h with h | h
        · left; simp [h]
        · rcases ih h with h | h
          · left; simp [h]
          · right; exact h

theorem lookupA_some_mem {α : Type} {m : List (String × α)} {k : String} {v : α}
    (h : lookupA m k = some v) : (k, v) ∈ m := by
  induction m with
  | nil => simp [lookupA] at h
  | cons kv rest ih =>
      obtain ⟨a, w⟩ := kv
      by_cases ha : a = k
      · simp [lookupA, ha] at h
        simp [ha, h]
      · simp [lookupA, ha] at h
        simp [ih h]

theorem lookupA_of_mem_nodup {α : Type} {m : List (String × α)}
    (hnd : (m.map Prod.fst).Nodup) {k : String} {v : α} (h : (k, v) ∈ m) :
    lookupA m k = some v := by
  induction m with
  | nil => simp at h
  | cons kv rest ih =>
      obtain ⟨a, w⟩ := kv
      simp at hnd
      rcases List.mem_cons.mp h with h | h
      · obtain ⟨hk, hv⟩ := Prod.mk.injEq .. ▸ h
        simp [lookupA, hk.symm, hv]
      · have hk : a ≠ k := by
          intro hak
          exact hnd.1 v (hak ▸ h)
        simp [lookupA, hk, ih hnd.2 h]

theorem nodupKeys_storeA {α : Type} {m : List (String × α)}
    (hnd : (m.map Prod.fst).Nodup) (k : String) (v : α) :
    ((storeA m k v).map Prod.fst).Nodup := by
  cases h : lookupA m k with
  | some e => rw [storeA_keys_of_some h]; exact hnd
  | none =>
      rw [storeA_eq_append v h]
      have hk : k ∉ m.map Prod.fst := (lookupA_eq_none_iff m k).mp h
      simp [List.nodup_append, hnd, hk]

/-! ### Deduplication lemmas -/

theorem specSeverityRank_eq_code (s : String) :
    specSeverityRank s = pod.getSeverityPriority s := rfl

theorem specReasonRank_eq_code (r : String) :
    specReasonRank r = pod.getReasonPriority r := rfl

theorem dedupStep_none {m : List (String × Issue)} {i : Issue}
    (hm : lookupA m (pod.dedupKey i) = none) :
    pod.dedupStep m i = storeA m (pod.dedupKey i) i := by
  unfold pod.dedupStep
  rw [hm]

theorem dedupStep_some {m : List (String × Issue)} {i e : Issue}
    (hm : lookupA m (pod.dedupKey i) = some e) :
    pod.dedupStep m i =
      if pod.getSeverityPriority i.severity > pod.getSeverityPriority e.severity then
        storeA m (pod.dedupKey i) i
      else
        if pod.getSeverityPriority i.severity = pod.getSeverityPriority e.severity
            ∧ pod.getReasonPriority i.reason > pod.getReasonPriority e.reason then
          storeA m (pod.dedupKey i) i
        else m := by
  unfold pod.dedupStep
  rw [hm]

theorem dedupStep_cases (m : List (String × Issue)) (i : Issue) :
    pod.dedupStep m i = storeA m (pod.dedupKey i) i ∨ pod.dedupStep m i = m := by
  cases hm : lookupA m (pod.dedupKey i) with
  | none => exact Or.inl (dedupStep_none hm)
  | some e =>
      rw [dedupStep_some hm]
      by_cases c1 : pod.getSeverityPriority i.severity > pod.getSeverityPriority e.severity
      · rw [if_pos c1]; exact Or.inl rfl
      · rw [if_neg c1]
        by_cases c2 : pod.getSeverityPriority i.severity = pod.getSeverityPriority e.severity
            ∧ pod.getReasonPriority i.reason > pod.getReasonPriority e.reason
        · rw [if_pos c2]; exact Or.inl rfl
        · rw [if_neg c2]; exact Or.inr rfl

theorem mem_dedupStep {m : List (String × Issue)} {i : Issue} {kv : String × Issue}
    (h : kv ∈ pod.dedupStep m i) : kv ∈ m ∨ kv = (pod.dedupKey i, i) := by
  rcases dedupStep_cases m i with hc | hc
  · rw [hc] at h
    exact mem_storeA h
  · rw [hc] at h
    exact Or.inl h

theorem nodupKeys_dedupStep {m : List (String × Issue)}
    (hnd : (m.map Prod.fst).Nodup) (i : Issue) :
    ((pod.dedupStep m i).map Prod.fst).Nodup := by
  rcases dedupStep_cases m i with hc | hc <;> rw [hc]
  · exact nodupKeys_storeA hnd _ _
  · exact hnd

theorem dedup_fold_nodupKeys (l : List Issue) (m : List (String × Issue))
    (h : (m.map Prod.fst).Nodup) :
    (((l.foldl pod.dedupStep m)).map Prod.fst).Nodup := by
  induction l generalizing m with
  | nil => exact h
  | cons i rest ih => exact ih _ (nodupKeys_dedupStep h i)

theorem dedup_fold_keyed (l : List Issue) (m : List (String × Issue))
    (h : ∀ kv ∈ m, kv.1 = pod.dedupKey kv.2) :
    ∀ kv ∈ l.foldl pod.dedupStep m, kv.1 = pod.dedupKey kv.2 := by
  induction l generalizing m with
  | nil => exact h
  | cons i rest ih =>
      refine ih _ ?_
      intro kv hkv
      rcases mem_dedupStep hkv with hkv | hkv
      · exact h kv hkv
      · rw [hkv]

theorem lookupA_dedupStep_self (m : List (String × Issue)) (i : Issue) {e : Issue}
    (h : lookupA m (pod.dedupKey i) = some e) :
    lookupA (pod.dedupStep m i) (pod.dedupKey i) = some (betterIssue e i) := by
  rw [dedupStep_some h]
  unfold betterIssue
  simp only [specSeverityRank_eq_code, specReasonRank_eq_code]
  by_cases c1 : pod.getSeverityPriority i.severity > pod.getSeverityPriority e.severity
  · rw [if_pos c1, if_pos c1, lookupA_storeA_self]
  · rw [if_neg c1, if_neg c1]
    by_cases c2 : pod.getSeverityPriority i.severity = pod.getSeverityPriority e.severity
        ∧ pod.getReasonPriority i.reason > pod.getReasonPriority e.reason
    · rw [if_pos c2, if_pos c2, lookupA_storeA_self]
    · rw [if_neg c2, if_neg c2]
      exact h

theorem lookupA_dedupStep_ne (m : List (String × Issue)) (i : Issue) {key : String}
    (h : pod.dedupKey i ≠ key) :
    lookupA (pod.dedupStep m i) key = lookupA m key := by
  rcases dedupStep_cases m i with hc | hc
  · rw [hc]
    exact lookupA_storeA_ne m i h
  · rw [hc]

theorem lookupA_fold_dedup_some (l : List Issue) (m : List (String × Issue))
    {key : String} {e : Issue} (h : lookupA m key = some e) :
    lookupA (l.foldl pod.dedupStep m) key
      = some ((l.filter (fun j => pod.dedupKey j == key)).foldl betterIssue e) := by
  induction l generalizing m e with
  | nil => simpa using h
  | cons i rest ih =>
      by_cases hk : pod.dedupKey i = key
      · subst hk
        rw [List.foldl_cons,
          ih (pod.dedupStep m i) (lookupA_dedupStep_self m i h)]
        simp [List.filter_cons]
      · rw [List.foldl_cons, ih (pod.dedupStep m i) ((lookupA_dedupStep_ne m i hk).trans h)]
        simp [List.filter_cons, hk]

theorem lookupA_fold_dedup_none (l : List Issue) (m : List (String × Issue))
    {key : String} (h : lookupA m key = none) :
    lookupA (l.foldl pod.dedupStep m) key
      = match l.filter (fun j => pod.dedupKey j == key) with
        | [] => none
        | first :: rest => some (rest.foldl betterIssue first) := by
  induction l generalizing m with
  | nil => simpa using h
  | cons i rest ih =>
      by_cases hk : pod.dedupKey i = key
      · subst hk
        have hstep : pod.dedupStep m i = storeA m (pod.dedupKey i) i := by
          unfold pod.dedupStep
          rw [h]
        rw [List.foldl_cons, hstep,
          lookupA_fold_dedup_some rest _ (lookupA_storeA_self m (pod.dedupKey i) i)]
        simp [List.filter_cons]
      · rw [List.foldl_cons, ih (pod.dedupStep m i) ((lookupA_dedupStep_ne m i hk).trans h)]
        simp [List.filter_cons, hk]

theorem filter_map_snd_eq_lookupA (M : List (String × Issue))
    (hnd : (M.map Prod.fst).Nodup)
    (hkey : ∀ kv ∈ M, kv.1 = pod.dedupKey kv.2) (key : String) :
    (M.map Prod.snd).filter (fun j => pod.dedupKey j == key)
      = match lookupA M key with
        | some v => [v]
        | none => [] := by
  induction M with
  | nil => rfl
  | cons kv rest ih =>
      obtain ⟨a, v⟩ := kv
      have hav : a = pod.dedupKey v := hkey (a, v) (List.mem_cons_self _ _)
      simp only [List.map_cons, List.nodup_cons] at hnd
      by_cases hK : a = key
      · have hvK : pod.dedupKey v = key := hav ▸ hK
        have hrest : (rest.map Prod.snd).filter (fun j => pod.dedupKey j == key) = [] := by
          rw [List.filter_eq_nil_iff]
          intro j hj
          rcases List.mem_map.mp hj with ⟨kv2, hkv2, hkv2j⟩
          have : kv2.1 = pod.dedupKey j := hkv2j ▸ hkey kv2 (List.mem_cons_of_mem _ hkv2)
          have hne : kv2.1 ≠ key := by
            intro hcon
            exact hnd.1 (hK ▸ hcon ▸ List.mem_map_of_mem Prod.fst hkv2)
          simp [← this, hne]
        simp [lookupA, List.filter_cons, hvK, hK, hrest]
      · have hvK : pod.dedupKey v ≠ key := hav ▸ hK
        simp only [List.map_cons, List.filter_cons, lookupA]
        rw [if_neg hK]
        have hd : (pod.dedupKey v == key) = false := by
          simp [hvK]
        rw [hd]
        simp only [Bool.false_eq_true, if_false]
        exact ih hnd.2 (fun kv2 hkv2 => hkey kv2 (List.mem_cons_of_mem _ hkv2))

/-- Claim C1: for every raw issue list, the deduplicated list contains
at most one issue per (namespace, name) pair. -/
theorem deduplicate_at_most_one_per_pod (issues : List Issue)
    (nspace podName : String) :
    (pod.deduplicateIssues issues).countP
        (fun i => i.ns == nspace && i.name == podName) ≤ 1 := by
  unfold pod.deduplicateIssues
  by_cases he : issues.isEmpty
  · rw [if_pos he]
    rw [List.isEmpty_iff.mp he]
    simp
  · rw [if_neg he]
    have hnd := dedup_fold_nodupKeys issues [] (by simp)
    have hkey := dedup_fold_keyed issues [] (by simp)
    calc (((issues.foldl pod.dedupStep []).map Prod.snd).countP
            (fun i => i.ns == nspace && i.name == podName))
        ≤ ((issues.foldl pod.dedupStep []).map Prod.snd).countP
            (fun i => pod.dedupKey i == nspace ++ "/" ++ podName) := by
          apply List.countP_mono_left
          intro i _ hi
          simp only [Bool.and_eq_true, beq_iff_eq] at hi
          simp [pod.dedupKey, hi.1, hi.2]
      _ ≤ 1 := by
          rw [List.countP_eq_length_filter,
            filter_map_snd_eq_lookupA _ hnd hkey (nspace ++ "/" ++ podName)]
          cases lookupA (issues.foldl pod.dedupStep []) (nspace ++ "/" ++ podName) <;> simp

/-- Claim C2: for every raw issue list and every (namespace, name) key
occurring in it, the single issue the deduplicator keeps for that key
is the left fold of the claim resolution rule (strictly higher
severity rank replaces; on ties, strictly higher reason rank replaces;
otherwise the earlier issue stays) over the issues bearing that key,
in input order. -/
theorem deduplicate_keeps_running_best (issues : List Issue)
    (nspace podName : String) (first : Issue) (rest : List Issue)
    (h : issues.filter (fun j => pod.dedupKey j == nspace ++ "/" ++ podName)
          = first :: rest) :
    (pod.deduplicateIssues issues).filter
        (fun j => pod.dedupKey j == nspace ++ "/" ++ podName)
      = [rest.foldl betterIssue first] := by
  have hne : ¬ issues.isEmpty := by
    intro he
    rw [List.isEmpty_iff.mp he] at h
    simp at h
  unfold pod.deduplicateIssues
  rw [if_neg hne]
  have hl := @lookupA_fold_dedup_none issues []
      (nspace ++ "/" ++ podName) (by simp [lookupA])
  rw [h] at hl
  rw [filter_map_snd_eq_lookupA _ (dedup_fold_nodupKeys issues [] (by simp))
      (dedup_fold_keyed issues [] (by simp)) (nspace ++ "/" ++ podName), hl]

/-- Two raw issues of the C2 witness pod: same severity tier, the
second with the more specific reason, so the fold keeps the second. -/
def cexIssueHRC : Issue :=
  { kind := "Pod", ns := "ns1", name := "p1", severity := "high"
    reason := "HighRestartCount", rootCause := "r1", podStatus := "Running"
    timestamp := "t", nodeName := "n", restartCount := 9, lastEvent := "" }

def cexIssueCLBO : Issue :=
  { kind := "Pod", ns := "ns1", name := "p1", severity := "high"
    reason := "CrashLoopBackOff", rootCause := "r2", podStatus := "Running"
    timestamp := "t", nodeName := "n", restartCount := 9, lastEvent := "" }

theorem deduplicate_keeps_running_best_witness :
    (pod.deduplicateIssues [cexIssueHRC, cexIssueCLBO]).filter
        (fun j => pod.dedupKey j == "ns1" ++ "/" ++ "p1")
      = [cexIssueCLBO] :=
  (deduplicate_keeps_running_best [cexIssueHRC, cexIssueCLBO] "ns1" "p1"
      cexIssueHRC [cexIssueCLBO] (by decide)).trans (by decide)

/-- Helper for idempotence: a fold of the deduplication step over
issues with pairwise distinct keys, all fresh for the accumulator,
appends one binding per issue. -/
theorem foldl_dedupStep_of_fresh (l : List Issue) (m : List (String × Issue))
    (hnd : (l.map pod.dedupKey).Nodup)
    (hfresh : ∀ i ∈ l, pod.dedupKey i ∉ m.map Prod.fst) :
    l.foldl pod.dedupStep m = m ++ l.map (fun i => (pod.dedupKey i, i)) := by
  induction l generalizing m with
  | nil => simp
  | cons i rest ih =>
      simp only [List.map_cons, List.nodup_cons] at hnd
      have hm : lookupA m (pod.dedupKey i) = none :=
        (lookupA_eq_none_iff m _).mpr (hfresh i (List.mem_cons_self _ _))
      rw [List.foldl_cons, dedupStep_none hm, storeA_eq_append i hm,
        ih (m ++ [(pod.dedupKey i, i)]) hnd.2 ?_]
      · simp
      · intro j hj
        simp only [List.map_append, List.mem_append, List.map_cons]
        rintro (hc | hc)
        · exact hfresh j (List.mem_cons_of_mem _ hj) hc
        · simp at hc
          exact hnd.1 (hc ▸ List.mem_map_of_mem pod.dedupKey hj)

/-- Helper for idempotence: deduplication is the identity on a list
whose keys are already pairwise distinct. -/
theorem deduplicate_of_nodup_keys (l : List Issue)
    (hnd : (l.map pod.dedupKey).Nodup) :
    pod.deduplicateIssues l = l := by
  unfold pod.deduplicateIssues
  by_cases he : l.isEmpty
  · rw [if_pos he]
  · rw [if_neg he, foldl_dedupStep_of_fresh l [] hnd (by simp)]
    simp [Function.comp_def]

/-- Claim C6: deduplication is idempotent — applying it to its own
output returns that output unchanged (hence the same issue set). -/
theorem deduplicate_idempotent (issues : List Issue) :
    pod.deduplicateIssues (pod.deduplicateIssues issues)
      = pod.deduplicateIssues issues := by
  apply deduplicate_of_nodup_keys
  unfold pod.deduplicateIssues
  by_cases he : issues.isEmpty
  · rw [if_pos he, List.isEmpty_iff.mp he]
    simp
  · rw [if_neg he]
    have hnd := dedup_fold_nodupKeys issues [] (by simp)
    have hkey := dedup_fold_keyed issues [] (by simp)
    rw [List.map_map]
    have : (issues.foldl pod.dedupStep []).map (pod.dedupKey ∘ Prod.snd)
        = (issues.foldl pod.dedupStep []).map Prod.fst :=
      List.map_congr_left (fun kv hkv => (hkey kv hkv).symm)
    rw [this]
    exact hnd

/-! ### Diff engine lemmas -/

theorem buildIssueMap_fold_nodupKeys (l : List Issue) (m : List (String × Issue))
    (h : (m.map Prod.fst).Nodup) :
    ((l.foldl (fun m issue => storeA m (report.issueKey issue) issue) m).map
        Prod.fst).Nodup := by
  induction l generalizing m with
  | nil => exact h
  | cons i rest ih => exact ih _ (nodupKeys_storeA h _ _)

theorem buildIssueMap_nodupKeys (issues : List Issue) :
    ((report.buildIssueMap issues).map Prod.fst).Nodup :=
  buildIssueMap_fold_nodupKeys issues [] (by simp)

theorem changedEntry_none {oldIssuesMap : List (String × Issue)}
    {kv : String × Issue} (h : lookupA oldIssuesMap kv.1 = none) :
    report.changedEntry oldIssuesMap kv = none := by
  unfold report.changedEntry
  rw [h]

theorem changedEntry_some {oldIssuesMap : List (String × Issue)}
    {kv : String × Issue} {oldIssue : Issue}
    (h : lookupA oldIssuesMap kv.1 = some oldIssue) :
    report.changedEntry oldIssuesMap kv =
      if (report.compareIssues oldIssue kv.2).isEmpty then none
      else some { oldIssue := oldIssue, newIssue := kv.2,
                  changes := report.compareIssues oldIssue kv.2 } := by
  unfold report.changedEntry
  rw [h]

/-- Claim C5: the diff engine matches solely by the composite
(namespace, kind, name) key — an issue of the new snapshot is reported
new exactly when its key has no binding in the old map, an issue of the
old snapshot is reported resolved exactly when its key has no binding
in the new map, a changed record is emitted exactly for keys bound in
both maps whose issues differ on at least one compared field, carrying
both issues and the change lines — and the comparison produces exactly
one formatted line per differing field of the six designated fields. -/
theorem DiffReports_matches_claim (oldReport newReport : report.ReportData) :
    (∀ o n : Issue, report.compareIssues o n = specFieldChanges o n)
    ∧ (∀ i : Issue,
        i ∈ (report.DiffReports oldReport newReport).newIssues
          ↔ ∃ k, lookupA (report.buildIssueMap newReport.issues) k = some i
              ∧ lookupA (report.buildIssueMap oldReport.issues) k = none)
    ∧ (∀ i : Issue,
        i ∈ (report.DiffReports oldReport newReport).resolvedIssues
          ↔ ∃ k, lookupA (report.buildIssueMap oldReport.issues) k = some i
              ∧ lookupA (report.buildIssueMap newReport.issues) k = none)
    ∧ (∀ c : report.IssueChange,
        c ∈ (report.DiffReports oldReport newReport).changedIssues
          ↔ ∃ k, lookupA (report.buildIssueMap oldReport.issues) k = some c.oldIssue
              ∧ lookupA (report.buildIssueMap newReport.issues) k = some c.newIssue
              ∧ c.changes = report.compareIssues c.oldIssue c.newIssue
              ∧ c.changes ≠ []) := by
  have hndOld := buildIssueMap_nodupKeys oldReport.issues
  have hndNew := buildIssueMap_nodupKeys newReport.issues
  refine ⟨fun o n => rfl, ?_, ?_, ?_⟩
  · intro i
    simp only [report.DiffReports]
    constructor
    · intro hi
      rcases List.mem_map.mp hi with ⟨kv, hkv, hsnd⟩
      rcases List.mem_filter.mp hkv with ⟨hmem, hp⟩
      refine ⟨kv.1, ?_, ?_⟩
      · rw [← hsnd]
        exact lookupA_of_mem_nodup hndNew hmem
      · exact Option.isNone_iff_eq_none.mp hp
    · rintro ⟨k, hnew, hold⟩
      exact List.mem_map.mpr ⟨(k, i), List.mem_filter.mpr
        ⟨lookupA_some_mem hnew, by simp [hold]⟩, rfl⟩
  · intro i
    simp only [report.DiffReports]
    constructor
    · intro hi
      rcases List.mem_map.mp hi with ⟨kv, hkv, hsnd⟩
      rcases List.mem_filter.mp hkv with ⟨hmem, hp⟩
      refine ⟨kv.1, ?_, ?_⟩
      · rw [← hsnd]
        exact lookupA_of_mem_nodup hndOld hmem
      · exact Option.isNone_iff_eq_none.mp hp
    · rintro ⟨k, hold, hnew⟩
      exact List.mem_map.mpr ⟨(k, i), List.mem_filter.mpr
        ⟨lookupA_some_mem hold, by simp [hnew]⟩, rfl⟩
  · intro c
    simp only [report.DiffReports]
    constructor
    · intro hc
      rcases List.mem_filterMap.mp hc with ⟨kv, hkv, hf⟩
      cases hold : lookupA (report.buildIssueMap oldReport.issues) kv.1 with
      | none =>
          rw [changedEntry_none hold] at hf
          exact absurd hf (by simp)
      | some oldIssue =>
          rw [changedEntry_some hold] at hf
          by_cases he : (report.compareIssues oldIssue kv.2).isEmpty
          · rw [if_pos he] at hf
            exact absurd hf (by simp)
          · rw [if_neg he] at hf
            obtain rfl := Option.some.inj hf
            exact ⟨kv.1, hold, lookupA_of_mem_nodup hndNew hkv, rfl, by simpa using he⟩
    · rintro ⟨k, hold, hnew, hch, hne⟩
      refine List.mem_filterMap.mpr ⟨(k, c.newIssue), lookupA_some_mem hnew, ?_⟩
      rw [changedEntry_some hold]
      have he : ¬ (report.compareIssues c.oldIssue c.newIssue).isEmpty := by
        rw [← hch]
        simpa using hne
      rw [if_neg he]
      cases c with
      | mk o n ch =>
          simp only at hch ⊢
          rw [hch]

/-- The spec diff scenario for the C5 witness: same key (a, Pod, x),
restart count changed from 3 to 7. -/
def wOldIssue : Issue :=
  { kind := "Pod", ns := "a", name := "x", severity := "high"
    reason := "CrashLoopBackOff", rootCause := "rc", podStatus := "Running"
    timestamp := "t1", nodeName := "n1", restartCount := 3, lastEvent := "" }

def wNewIssue : Issue :=
  { wOldIssue with restartCount := 7, timestamp := "t2" }

theorem DiffReports_matches_claim_witness :
    ({ oldIssue := wOldIssue, newIssue := wNewIssue,
       changes := ["RestartCount: 3 → 7"] } : report.IssueChange)
      ∈ (report.DiffReports { generatedAt := "g1", issues := [wOldIssue] }
          { generatedAt := "g2", issues := [wNewIssue] }).changedIssues :=
  ((DiffReports_matches_claim { generatedAt := "g1", issues := [wOldIssue] }
      { generatedAt := "g2", issues := [wNewIssue] }).2.2.2 _).mpr
    ⟨"a" ++ "/" ++ "Pod" ++ "/" ++ "x", by decide, by decide, by decide, by decide⟩
